import Mathlib

/-!
Shallow embedding of the `rs` package of terraform-provider-rightscale
(files `rs/resource.go` and `rs/resource_deployment.go`).

Go values of the schema attributes are strings or booleans (`Value`).
A `ResourceData` models the host framework object `*schema.ResourceData`:
its host-visible identifier (`d.Id()` / `d.SetId(...)`) and its attribute
store (`d.Get`, `d.GetOk`, `d.Set`).  The remote client `rsc.Client` is
modelled as a record of response functions; each lifecycle function also
returns the list of remote calls it issued, in order, so the call pattern
of the source is part of the observable result.
-/

namespace RS

/-- A schema attribute value: the deployment schema only uses
`schema.TypeString` and `schema.TypeBool` attributes. -/
inductive Value
  | str (s : String)
  | bool (b : Bool)
  deriving Repr, DecidableEq

/-- Whether a value is Go's zero value for its type: `""` for strings and
`false` for booleans.  `d.GetOk` reports `ok = false` on zero values. -/
def Value.isZero : Value → Bool
  | .str s => s == ""
  | .bool b => !b

/-- `rsc.Fields` (`map[string]interface{}`), modelled as an association
list from field name to value. -/
abbrev Fields := List (String × Value)

/-- `rsc.Locator`: a namespace plus a remote href (fields named as in Go). -/
structure Locator where
  Namespace : String
  Href : String
  deriving Repr, DecidableEq

/-- `rsc.Resource`: the remote resource representation returned by
`client.Create` and `client.Get`. -/
structure Resource where
  locator : Locator
  fields : Fields
  deriving Repr, DecidableEq

/-- Errors returned by the remote client; `notFound` is the sentinel
`rsc.ErrNotFound`, every other client error is `other`. -/
inductive RSError
  | notFound
  | other (msg : String)
  deriving Repr, DecidableEq

/-- Errors a lifecycle function can return: either a client error passed
through, or the `fmt.Errorf("invalid resource ID %q", ...)` produced by
`locator`. -/
inductive ProviderError
  | rsc (e : RSError)
  | invalidID (id : String)
  deriving Repr, DecidableEq

/-- `*schema.ResourceData`: the host-visible identifier plus the attribute
store (an association list keyed by attribute name). -/
structure ResourceData where
  id : String
  attrs : List (String × Value)
  deriving Repr, DecidableEq

/-- Association-list lookup used by the attribute store and by `Fields`. -/
def fieldLookup : List (String × Value) → String → Option Value
  | [], _ => none
  | (k, v) :: rest, key => if k = key then some v else fieldLookup rest key

/-- Association-list update: replaces the binding of `k` or appends it. -/
def fieldSet : List (String × Value) → String → Value → List (String × Value)
  | [], k, v => [(k, v)]
  | (k2, v2) :: rest, k, v =>
    if k2 = k then (k, v) :: rest else (k2, v2) :: fieldSet rest k v

/-- `d.Set(k, v)`: writes an attribute (never the identifier). -/
def ResourceData.set (d : ResourceData) (k : String) (v : Value) : ResourceData :=
  { d with attrs := fieldSet d.attrs k v }

/-- `d.SetId(s)`: writes the host-visible identifier. -/
def ResourceData.setId (d : ResourceData) (s : String) : ResourceData :=
  { d with id := s }

/-- `d.Get(k)` for a string attribute: the stored value, or the zero value
`""` when unset (only used for the required string attribute `name`). -/
def ResourceData.get (d : ResourceData) (k : String) : Value :=
  (fieldLookup d.attrs k).getD (.str "")

/-- `d.Get(k).(bool)` for a boolean attribute: the stored boolean, or the
zero value `false` when unset. -/
def ResourceData.getBool (d : ResourceData) (k : String) : Bool :=
  match fieldLookup d.attrs k with
  | some (.bool b) => b
  | _ => false

/-- `d.GetOk(k)`: `some v` exactly when the attribute is set to a non-zero
value `v`; `none` models `ok = false` (unset, or set to the zero value). -/
def ResourceData.getOk (d : ResourceData) (k : String) : Option Value :=
  match fieldLookup d.attrs k with
  | some v => if v.isZero then none else some v
  | none => none

/-- The `for k, v := range res.Fields { d.Set(k, v) }` copy-back loop. -/
def setFields (d : ResourceData) (fs : Fields) : ResourceData :=
  fs.foldl (fun d kv => d.set kv.1 kv.2) d

/-- One remote call issued through the `rsc.Client` interface. -/
inductive RemoteCall
  | create (ns typ : String) (fields : Fields)
  | get (loc : Locator)
  | update (loc : Locator) (fields : Fields)
  | delete (loc : Locator)
  | run (loc : Locator) (source : String)
  deriving Repr, DecidableEq

/-- The `rsc.Client` interface, as the responses the remote service gives
to each kind of call.  `get` may return no resource with no error (the Go
client returns `(*rsc.Resource, error)` and `resourceExists` checks
`res != nil`). -/
structure Client where
  create : String → String → Fields → Except RSError Resource
  get : Locator → Except RSError (Option Resource)
  update : Locator → Fields → Option RSError
  delete : Locator → Option RSError
  run : Locator → String → Option RSError

/-- Result of a lifecycle function: the resource data after the call, the
remote calls issued in order, and the returned error (`none` = `nil`). -/
structure RunResult where
  d : ResourceData
  calls : List RemoteCall
  err : Option ProviderError
  deriving Repr, DecidableEq

/-- Go `strings.Split` for a one-character separator, on the character
list: splits at every occurrence of `sep`; the result is always nonempty
and splitting the empty string yields `[[]]`. -/
def splitChars (sep : Char) : List Char → List (List Char)
  | [] => [[]]
  | c :: cs =>
    match splitChars sep cs with
    | [] => [[]]
    | p :: ps => if c = sep then [] :: p :: ps else (c :: p) :: ps

/-- Go `strings.Split(s, sep)` for a one-character separator. -/
def goSplit (s : String) (sep : Char) : List String :=
  (splitChars sep s.data).map (fun l => ⟨l⟩)

/-- `locator` (resource.go): splits the host-visible identifier on `":"`;
succeeds exactly on two parts, else returns the invalid-resource-ID error. -/
def locator (d : ResourceData) : Except ProviderError Locator :=
  match goSplit d.id ':' with
  | [ns, href] => .ok ⟨ns, href⟩
  | _ => .error (.invalidID d.id)

/-- `handleRSCError` (resource.go): on the `rsc.ErrNotFound` sentinel it
clears the identifier and swallows the error; otherwise it returns the
error unchanged and leaves the data untouched. -/
def handleRSCError (d : ResourceData) (e : RSError) : ResourceData × Option ProviderError :=
  match e with
  | .notFound => (d.setId "", none)
  | e => (d, some (.rsc e))

/-- Fields of the optional resource returned by `client.Get`; the Go code
ranges over `res.Fields` (a `nil` resource would have no fields to copy). -/
def resFields : Option Resource → Fields
  | some r => r.fields
  | none => []

/-- `resourceRead` (resource.go): locator parse, one `Get`, field
copy-back; a `Get` error goes through `handleRSCError`. -/
def resourceRead (d : ResourceData) (c : Client) : RunResult :=
  match locator d with
  | .error e => ⟨d, [], some e⟩
  | .ok loc =>
    match c.get loc with
    | .error e =>
      match handleRSCError d e with
      | (d2, e2) => ⟨d2, [.get loc], e2⟩
    | .ok res => ⟨setFields d (resFields res), [.get loc], none⟩

/-- `resourceDelete` (resource.go): locator parse, one `Delete`, client
result returned unchanged. -/
def resourceDelete (d : ResourceData) (c : Client) : RunResult :=
  match locator d with
  | .error e => ⟨d, [], some e⟩
  | .ok loc => ⟨d, [.delete loc], (c.delete loc).map .rsc⟩

/-- Result of `resourceExists`: the boolean, the (unchanged) data, the
calls issued, and the returned error. -/
structure ExistsResult where
  found : Bool
  d : ResourceData
  calls : List RemoteCall
  err : Option ProviderError
  deriving Repr, DecidableEq

/-- `resourceExists` (resource.go): locator parse, one `Get`; any `Get`
error (the not-found sentinel included) is returned with `false`. -/
def resourceExists (d : ResourceData) (c : Client) : ExistsResult :=
  match locator d with
  | .error e => ⟨false, d, [], some e⟩
  | .ok loc =>
    match c.get loc with
    | .error e => ⟨false, d, [.get loc], some (.rsc e)⟩
    | .ok res => ⟨res.isSome, d, [.get loc], none⟩

/-- `deploymentFields` (resource_deployment.go): always the `name` field,
plus each optional field exactly when `d.GetOk` reports it set. -/
def deploymentFields (d : ResourceData) : Fields :=
  let fields : Fields := [("name", d.get "name")]
  let fields := match d.getOk "description" with
    | some desc => fields ++ [("description", desc)]
    | none => fields
  let fields := match d.getOk "resource_group_href" with
    | some rghref => fields ++ [("resource_group_href", rghref)]
    | none => fields
  let fields := match d.getOk "server_tag_scope" with
    | some scope => fields ++ [("server_tag_scope", scope)]
    | none => fields
  fields

/-- `updateLock` (resource_deployment.go): locator parse, then one `Run`
of `@res.lock()` or `@res.unlock()` according to the `locked` attribute.
Returns the calls issued and the error. -/
def updateLock (d : ResourceData) (c : Client) : List RemoteCall × Option ProviderError :=
  match locator d with
  | .error e => ([], some e)
  | .ok loc =>
    let lock := d.getBool "locked"
    if lock then ([.run loc "@res.lock()"], (c.run loc "@res.lock()").map .rsc)
    else ([.run loc "@res.unlock()"], (c.run loc "@res.unlock()").map .rsc)

/-- `resourceDeploymentCreate` (resource_deployment.go): one `Create`,
field copy-back, then — when the `locked` flag is set — `updateLock`, with
a compensating `Delete` (whose error is ignored) when the lock step fails;
`d.SetId` runs last, only after every remote operation succeeded. -/
def resourceDeploymentCreate (d : ResourceData) (c : Client) : RunResult :=
  let mustLock := match d.getOk "locked" with
    | some (.bool b) => b
    | _ => false
  let flds := deploymentFields d
  match c.create "rs_cm" "deployment" flds with
  | .error e => ⟨d, [.create "rs_cm" "deployment" flds], some (.rsc e)⟩
  | .ok res =>
    let d1 := setFields d res.fields
    if mustLock then
      match updateLock d1 c with
      | (lcalls, some e) =>
        ⟨d1, .create "rs_cm" "deployment" flds :: lcalls ++ [.delete res.locator], some e⟩
      | (lcalls, none) =>
        let d2 := (d1.set "locked" (.bool true)).setId
          (res.locator.Namespace ++ ":" ++ res.locator.Href)
        ⟨d2, .create "rs_cm" "deployment" flds :: lcalls, none⟩
    else
      let d2 := d1.setId (res.locator.Namespace ++ ":" ++ res.locator.Href)
      ⟨d2, [.create "rs_cm" "deployment" flds], none⟩

/-- Modelled from the spec: `handleError`, called by
`resourceDeploymentUpdate`, is code of this repository not present under
src/.  Per the spec, "All other errors propagate verbatim to the host
framework": it returns the error unchanged and leaves the data untouched. -/
def handleError (d : ResourceData) (e : ProviderError) : ResourceData × Option ProviderError :=
  (d, some e)

/-- `resourceDeploymentUpdate` (resource_deployment.go): locator parse,
then `updateLock` (one `Run`), then one `Update` of the other fields.
`d.Partial` / `d.SetPartial` only drive the host framework's partial-state
bookkeeping and are not modelled. -/
def resourceDeploymentUpdate (d : ResourceData) (c : Client) : RunResult :=
  match locator d with
  | .error e => ⟨d, [], some e⟩
  | .ok loc =>
    match updateLock d c with
    | (lcalls, some e) =>
      match handleError d e with
      | (d2, e2) => ⟨d2, lcalls, e2⟩
    | (lcalls, none) =>
      match c.update loc (deploymentFields d) with
      | some e =>
        match handleError d (.rsc e) with
        | (d2, e2) => ⟨d2, lcalls ++ [.update loc (deploymentFields d)], e2⟩
      | none => ⟨d, lcalls ++ [.update loc (deploymentFields d)], none⟩

/-- The `ValidateFunc` of the `server_tag_scope` schema attribute
(resource_deployment.go): no warnings ever; no errors exactly on `""`,
`"account"` and `"deployment"`, else the single quoted error message. -/
def serverTagScopeValidate (v : Value) : List String × List String :=
  if v = .str "" ∨ v = .str "account" ∨ v = .str "deployment" then ([], [])
  else ([], ["server_tag_scope must be \"account\" or \"deployment\""])

/-! ### Helper lemmas about `splitChars`, `goSplit` and `locator` -/

theorem splitChars_ne_nil (sep : Char) (l : List Char) : splitChars sep l ≠ [] := by
  induction l with
  | nil => simp [splitChars]
  | cons c cs ih =>
    simp only [splitChars]
    cases hb : splitChars sep cs with
    | nil => exact absurd hb ih
    | cons p ps =>
      by_cases hc : c = sep <;> simp [hc]

theorem splitChars_of_not_mem (sep : Char) (l : List Char) (h : sep ∉ l) :
    splitChars sep l = [l] := by
  induction l with
  | nil => rfl
  | cons c cs ih =>
    have hc : c ≠ sep := by rintro rfl; exact h (List.mem_cons_self _ _)
    have hcs : sep ∉ cs := fun hm => h (List.mem_cons_of_mem _ hm)
    simp [splitChars, ih hcs, hc]

theorem splitChars_append_sep (sep : Char) (a b : List Char) (h : sep ∉ a) :
    splitChars sep (a ++ sep :: b) = a :: splitChars sep b := by
  induction a with
  | nil =>
    simp only [List.nil_append, splitChars]
    cases hb : splitChars sep b with
    | nil => exact absurd hb (splitChars_ne_nil sep b)
    | cons p ps => simp
  | cons c cs ih =>
    have hc : c ≠ sep := by rintro rfl; exact h (List.mem_cons_self _ _)
    have hcs : sep ∉ cs := fun hm => h (List.mem_cons_of_mem _ hm)
    simp only [List.cons_append, splitChars, List.append_eq]
    rw [ih hcs]
    simp [hc]

theorem splitChars_length (sep : Char) (l : List Char) :
    (splitChars sep l).length = l.count sep + 1 := by
  induction l with
  | nil => rfl
  | cons c cs ih =>
    simp only [splitChars]
    cases hb : splitChars sep cs with
    | nil => exact absurd hb (splitChars_ne_nil sep cs)
    | cons p ps =>
      rw [hb] at ih
      by_cases hc : c = sep

      case pos =>
        subst hc
        simp only [List.count_cons, if_pos rfl, beq_self_eq_true]
        simp at ih ⊢
        omega

      case neg =>
        have : (cs.count sep) = ((c :: cs).count sep) := by
          simp [List.count_cons, hc, Ne.symm hc]
        simp [hc] at ih ⊢
        omega

theorem goSplit_length (s : String) : (goSplit s ':').length = s.data.count ':' + 1 := by
  simp [goSplit, splitChars_length]

theorem data_append_colon (ns href : String) :
    (ns ++ ":" ++ href).data = ns.data ++ ':' :: href.data := by
  have hcolon : (":" : String).data = [':'] := rfl
  rw [String.data_append, String.data_append, hcolon]
  simp

theorem goSplit_colon_free (ns href : String)
    (h1 : ':' ∉ ns.data) (h2 : ':' ∉ href.data) :
    goSplit (ns ++ ":" ++ href) ':' = [ns, href] := by
  unfold goSplit
  rw [data_append_colon, splitChars_append_sep _ _ _ h1, splitChars_of_not_mem _ _ h2]
  rfl

theorem locator_ok_of_split (d : ResourceData) (ns href : String)
    (h : goSplit d.id ':' = [ns, href]) : locator d = .ok ⟨ns, href⟩ := by
  unfold locator
  rw [h]

theorem locator_error_of_count_ne_one (d : ResourceData)
    (h : d.id.data.count ':' ≠ 1) : locator d = .error (.invalidID d.id) := by
  have hlen : (goSplit d.id ':').length ≠ 2 := by
    rw [goSplit_length]; omega
  unfold locator
  rcases hs : goSplit d.id ':' with _ | ⟨a, _ | ⟨b, _ | ⟨x, xs⟩⟩⟩ <;>
    simp_all

theorem locator_split_of_ok (d : ResourceData) (loc : Locator)
    (h : locator d = .ok loc) : goSplit d.id ':' = [loc.Namespace, loc.Href] := by
  unfold locator at h
  rcases hs : goSplit d.id ':' with _ | ⟨a, _ | ⟨b, _ | ⟨x, xs⟩⟩⟩ <;>
    rw [hs] at h
  case cons.cons.nil =>
    cases h
    rfl
  all_goals simp_all

/-! ### Concrete data for witnesses and counterexamples -/

/-- A concrete locator, the one `okClient` answers with. -/
def sampleLoc : Locator := ⟨"rs_cm", "/api/deployments/1"⟩

/-- A concrete deployment resource used as a remote response. -/
def sampleRes : Resource := ⟨sampleLoc, [("name", .str "n")]⟩

/-- A client whose every call succeeds. -/
def okClient : Client where
  create := fun _ _ f => .ok ⟨sampleLoc, f⟩
  get := fun _ => .ok (some sampleRes)
  update := fun _ _ => none
  delete := fun _ => none
  run := fun _ _ => none

/-- A client whose `Get` fails with the not-found sentinel. -/
def notFoundClient : Client := { okClient with get := fun _ => .error .notFound }

/-- A client whose `Get` fails with an error other than not-found. -/
def getFailClient : Client := { okClient with get := fun _ => .error (.other "boom") }

/-- A client whose `Run` fails, exercising the lock-failure path. -/
def runFailClient : Client := { okClient with run := fun _ _ => some (.other "locked out") }

/-- Concrete resource data with a parseable identifier. -/
def d0 : ResourceData := ⟨"rs_cm:/api/deployments/1", [("name", .str "n")]⟩

/-- Concrete resource data with an empty identifier and the lock flag set
(a new resource whose configuration asks for locking). -/
def dLocked : ResourceData := ⟨"", [("name", .str "n"), ("locked", .bool true)]⟩

/-- Concrete resource data with a parseable identifier and the lock flag
set. -/
def d0Locked : ResourceData :=
  ⟨"rs_cm:/api/deployments/1", [("name", .str "n"), ("locked", .bool true)]⟩

/-! ### Helper lemmas about the lifecycle functions -/

theorem ResourceData.set_id (d : ResourceData) (k : String) (v : Value) :
    (d.set k v).id = d.id := rfl

theorem setFields_id (d : ResourceData) (fs : Fields) : (setFields d fs).id = d.id := by
  induction fs generalizing d with
  | nil => rfl
  | cons kv rest ih => exact (ih (d.set kv.1 kv.2)).trans rfl

theorem updateLock_empty_id (d : ResourceData) (c : Client) (hid : d.id = "") :
    updateLock d c = ([], some (.invalidID "")) := by
  have hloc : locator d = .error (.invalidID d.id) :=
    locator_error_of_count_ne_one d (by rw [hid]; decide)
  unfold updateLock
  rw [hloc, hid]

theorem updateLock_parsed (d : ResourceData) (c : Client) (loc : Locator)
    (hloc : locator d = .ok loc) :
    updateLock d c =
      (let s := if d.getBool "locked" then "@res.lock()" else "@res.unlock()"
       ([.run loc s], (c.run loc s).map .rsc)) := by
  unfold updateLock
  rw [hloc]
  by_cases hl : d.getBool "locked" <;> simp [hl]

/-! ### Claim theorems -/

/-- C3: for every resource identifier string, `locator` succeeds exactly
when splitting the identifier on ":" yields exactly two parts, returning a
locator whose namespace is the first part and whose href is the second;
for any other shape (no separator, or more than one, i.e. the count of ":"
differs from 1) it returns the invalid-resource-ID error and no locator. -/
theorem locator_two_part_spec (d : ResourceData) :
    (∀ ns href, goSplit d.id ':' = [ns, href] → locator d = .ok ⟨ns, href⟩) ∧
    ((goSplit d.id ':').length ≠ 2 → locator d = .error (.invalidID d.id)) ∧
    (∀ loc, locator d = .ok loc →
      goSplit d.id ':' = [loc.Namespace, loc.Href]) ∧
    ((∃ loc, locator d = .ok loc) ↔ d.id.data.count ':' = 1) := by
  refine ⟨fun ns href h => locator_ok_of_split d ns href h, ?_,
    fun loc h => locator_split_of_ok d loc h, ?_, ?_⟩
  · intro hlen
    apply locator_error_of_count_ne_one
    have := goSplit_length d.id
    omega
  · rintro ⟨loc, h⟩
    have hs := locator_split_of_ok d loc h
    have hlen := goSplit_length d.id
    rw [hs] at hlen
    simp at hlen
    omega
  · intro hc
    have hlen : (goSplit d.id ':').length = 2 := by rw [goSplit_length]; omega
    obtain ⟨a, b, hs⟩ := List.length_eq_two.mp hlen
    exact ⟨⟨a, b⟩, locator_ok_of_split d a b hs⟩

/-- Witness for C3 at the concrete identifier "a:b". -/
theorem locator_two_part_spec_witness :
    locator ⟨"a:b", []⟩ = .ok ⟨"a", "b"⟩ :=
  (locator_two_part_spec ⟨"a:b", []⟩).1 "a" "b" (by decide)

/-- C6: when neither namespace nor href contains ":", parsing the
identifier that create writes (namespace ++ ":" ++ href) yields back
exactly that namespace and href; when the href itself contains ":", that
identifier fails to parse. -/
theorem create_id_roundtrip (ns href : String) (d : ResourceData)
    (hd : d.id = ns ++ ":" ++ href) :
    (':' ∉ ns.data → ':' ∉ href.data → locator d = .ok ⟨ns, href⟩) ∧
    (':' ∈ href.data → locator d = .error (.invalidID d.id)) := by
  constructor
  · intro h1 h2
    exact locator_ok_of_split d ns href
      (by rw [hd]; exact goSplit_colon_free ns href h1 h2)
  · intro hmem
    apply locator_error_of_count_ne_one
    rw [hd, data_append_colon]
    have hpos : 0 < href.data.count ':' := List.count_pos_iff.mpr hmem
    simp [List.count_append, List.count_cons]
    omega

/-- Witness for C6 at namespace "a" and href "b". -/
theorem create_id_roundtrip_witness :
    locator ⟨"a:b", [("name", .str "n")]⟩ = .ok ⟨"a", "b"⟩ :=
  (create_id_roundtrip "a" "b" ⟨"a:b", [("name", .str "n")]⟩ (by decide)).1
    (by decide) (by decide)

/-- C4: on a read, the not-found sentinel from `Get` sets the identifier
to the empty string and is swallowed (`nil` is returned); any other `Get`
error is returned unchanged and the resource data, its identifier
included, is left unchanged. -/
theorem read_not_found_translation (d : ResourceData) (c : Client) (loc : Locator)
    (hloc : locator d = .ok loc) :
    (c.get loc = .error .notFound →
      resourceRead d c = ⟨d.setId "", [.get loc], none⟩) ∧
    (∀ e, c.get loc = .error e → e ≠ .notFound →
      resourceRead d c = ⟨d, [.get loc], some (.rsc e)⟩) := by
  constructor
  · intro hget
    simp [resourceRead, hloc, hget, handleRSCError]
  · intro e hget hne
    cases e with
    | notFound => exact absurd rfl hne
    | other msg => simp [resourceRead, hloc, hget, handleRSCError]

/-- Witness for C4: a not-found read on concrete data clears the id. -/
theorem read_not_found_translation_witness :
    resourceRead d0 notFoundClient = ⟨d0.setId "", [.get sampleLoc], none⟩ :=
  (read_not_found_translation d0 notFoundClient sampleLoc rfl).1 rfl

/-- C8: `resourceDelete` performs only a locator parse and one remote
`Delete` call and returns the client's result unchanged (a server-side
rejection propagates verbatim); it modifies no resource data fields and
leaves the identifier unchanged whether the delete succeeds or fails. -/
theorem delete_passthrough (d : ResourceData) (c : Client) (loc : Locator)
    (hloc : locator d = .ok loc) :
    resourceDelete d c = ⟨d, [.delete loc], (c.delete loc).map .rsc⟩ ∧
    (∀ (d2 : ResourceData) (c2 : Client), (resourceDelete d2 c2).d = d2) := by
  refine ⟨by simp [resourceDelete, hloc], fun d2 c2 => ?_⟩
  unfold resourceDelete
  cases locator d2 <;> rfl

/-- Witness for C8: a delete on concrete data leaves the data unchanged
and issues the single `Delete` call. -/
theorem delete_passthrough_witness :
    resourceDelete d0 okClient = ⟨d0, [.delete sampleLoc], none⟩ :=
  (delete_passthrough d0 okClient sampleLoc rfl).1

/-- C9: when `Get` returns the not-found sentinel during an existence
check, `resourceExists` returns `false` together with that error (not
`nil`): the not-found translation of read is not applied here. -/
theorem exists_not_found_propagates (d : ResourceData) (c : Client) (loc : Locator)
    (hloc : locator d = .ok loc) (hget : c.get loc = .error .notFound) :
    resourceExists d c = ⟨false, d, [.get loc], some (.rsc .notFound)⟩ := by
  simp [resourceExists, hloc, hget]

/-- Witness for C9 on concrete data and the not-found client. -/
theorem exists_not_found_propagates_witness :
    resourceExists d0 notFoundClient = ⟨false, d0, [.get sampleLoc], some (.rsc .notFound)⟩ :=
  exists_not_found_propagates d0 notFoundClient sampleLoc rfl rfl

/-- C7: the `server_tag_scope` validation returns no warnings and no
errors exactly when the value is `""`, `"account"` or `"deployment"`; for
every other value it returns no warnings and exactly one error. -/
theorem server_tag_scope_validation (v : Value) :
    (serverTagScopeValidate v = ([], []) ↔
      (v = .str "" ∨ v = .str "account" ∨ v = .str "deployment")) ∧
    (¬(v = .str "" ∨ v = .str "account" ∨ v = .str "deployment") →
      (serverTagScopeValidate v).1 = [] ∧ (serverTagScopeValidate v).2.length = 1) := by
  by_cases h : v = .str "" ∨ v = .str "account" ∨ v = .str "deployment" <;>
    simp [serverTagScopeValidate, h]

/-- Witness for C7: "account" validates, "bogus" yields one error. -/
theorem server_tag_scope_validation_witness :
    serverTagScopeValidate (.str "account") = ([], []) ∧
    (serverTagScopeValidate (.str "bogus")).2.length = 1 :=
  ⟨(server_tag_scope_validation (.str "account")).1.mpr (by decide),
   ((server_tag_scope_validation (.str "bogus")).2 (by decide)).2⟩

/-- C10: `deploymentFields` always contains the `name` key, contains each
of `description`, `resource_group_href` and `server_tag_scope` exactly
when that attribute is set to a non-zero value, and contains no other key
— in particular it never contains `locked`. -/
theorem deployment_fields_spec (d : ResourceData) :
    fieldLookup (deploymentFields d) "name" = some (d.get "name") ∧
    fieldLookup (deploymentFields d) "description" = d.getOk "description" ∧
    fieldLookup (deploymentFields d) "resource_group_href" = d.getOk "resource_group_href" ∧
    fieldLookup (deploymentFields d) "server_tag_scope" = d.getOk "server_tag_scope" ∧
    (∀ kv ∈ deploymentFields d, kv.1 = "name" ∨ kv.1 = "description" ∨
      kv.1 = "resource_group_href" ∨ kv.1 = "server_tag_scope") := by
  unfold deploymentFields
  rcases hdesc : d.getOk "description" with _ | desc <;>
  rcases hrg : d.getOk "resource_group_href" with _ | rg <;>
  rcases hsc : d.getOk "server_tag_scope" with _ | sc <;>
    simp [fieldLookup]

/-- Witness for C10 on concrete data: `name` is present, and every entry
of the field map has one of the four schema keys. -/
theorem deployment_fields_spec_witness :
    fieldLookup (deploymentFields d0) "name" = some (d0.get "name") ∧
    (("name", d0.get "name").1 = "name" ∨ ("name", d0.get "name").1 = "description" ∨
      ("name", d0.get "name").1 = "resource_group_href" ∨
      ("name", d0.get "name").1 = "server_tag_scope") :=
  ⟨(deployment_fields_spec d0).1,
   (deployment_fields_spec d0).2.2.2.2 ("name", d0.get "name") (by decide)⟩

/-- C1: when the lock flag is set, the remote `Create` succeeded and the
lock step fails, create issues the compensating `Delete` of the resource
just created, ignores that delete's outcome (the result does not depend on
the client's delete response, which is universally quantified here),
returns the lock-step error, and leaves the identifier unchanged; and in
general the identifier is set, to the canonical `namespace:href`, only
when every remote operation of the invocation has succeeded. -/
theorem create_lock_failure_compensates (d : ResourceData) (c : Client)
    (res : Resource) (e : ProviderError)
    (hlock : d.getOk "locked" = some (.bool true))
    (hcr : c.create "rs_cm" "deployment" (deploymentFields d) = .ok res)
    (hlk : (updateLock (setFields d res.fields) c).2 = some e) :
    (resourceDeploymentCreate d c).err = some e ∧
    (resourceDeploymentCreate d c).d.id = d.id ∧
    (resourceDeploymentCreate d c).calls =
      .create "rs_cm" "deployment" (deploymentFields d) ::
        (updateLock (setFields d res.fields) c).1 ++ [.delete res.locator] ∧
    (∀ (d2 : ResourceData) (c2 : Client), (resourceDeploymentCreate d2 c2).err = none →
      ∃ res2, c2.create "rs_cm" "deployment" (deploymentFields d2) = .ok res2 ∧
        (resourceDeploymentCreate d2 c2).d.id =
          res2.locator.Namespace ++ ":" ++ res2.locator.Href) := by
  rcases hup : updateLock (setFields d res.fields) c with ⟨lcalls, oerr⟩
  rw [hup] at hlk
  simp only at hlk
  subst hlk
  refine ⟨?_, ?_, ?_, ?_⟩
  · simp [resourceDeploymentCreate, hlock, hcr, hup]
  · simp [resourceDeploymentCreate, hlock, hcr, hup, setFields_id]
  · simp [resourceDeploymentCreate, hlock, hcr, hup]
  · intro d2 c2 herr
    simp only [resourceDeploymentCreate] at herr ⊢
    cases hc2 : c2.create "rs_cm" "deployment" (deploymentFields d2) with
    | error e2 => simp [hc2] at herr
    | ok res2 =>
      refine ⟨res2, rfl, ?_⟩
      simp only [hc2] at herr ⊢
      by_cases hm : (match d2.getOk "locked" with
        | some (.bool b) => b | _ => false) = true
      · rcases hup2 : updateLock (setFields d2 res2.fields) c2 with ⟨l2, o2⟩
        cases o2 with
        | some e2 => simp [hm, hup2] at herr
        | none => simp [hm, ResourceData.setId]
      · simp [hm, ResourceData.setId] at herr ⊢

/-- Witness for C1: on data with a parseable identifier, lock flag set,
and a client whose `Run` fails, create returns the run error and keeps the
identifier. -/
theorem create_lock_failure_compensates_witness :
    (resourceDeploymentCreate d0Locked runFailClient).err =
      some (.rsc (.other "locked out")) ∧
    (resourceDeploymentCreate d0Locked runFailClient).d.id = d0Locked.id :=
  ⟨(create_lock_failure_compensates d0Locked runFailClient
      ⟨sampleLoc, deploymentFields d0Locked⟩ (.rsc (.other "locked out"))
      (by decide) rfl (by decide)).1,
   (create_lock_failure_compensates d0Locked runFailClient
      ⟨sampleLoc, deploymentFields d0Locked⟩ (.rsc (.other "locked out"))
      (by decide) rfl (by decide)).2.1⟩

/-- C2: create on a new resource (empty identifier) with the lock flag set
never succeeds: the lock helper's locator parse of the still-empty
identifier fails before any lock `Run` is issued, so whenever the remote
`Create` succeeds the invocation issues exactly the `Create` and the
compensating `Delete` (no `Run`) and returns the invalid-resource-ID
error; and for every client the returned error is non-nil. -/
theorem create_locked_new_resource_never_succeeds (d : ResourceData) (c : Client)
    (hid : d.id = "") (hlock : d.getOk "locked" = some (.bool true)) :
    (resourceDeploymentCreate d c).err.isSome = true ∧
    (∀ res, c.create "rs_cm" "deployment" (deploymentFields d) = .ok res →
      resourceDeploymentCreate d c =
        ⟨setFields d res.fields,
         [.create "rs_cm" "deployment" (deploymentFields d), .delete res.locator],
         some (.invalidID "")⟩) := by
  constructor
  · cases hcr : c.create "rs_cm" "deployment" (deploymentFields d) with
    | error e => simp [resourceDeploymentCreate, hcr]
    | ok res =>
      have hup := updateLock_empty_id (setFields d res.fields) c
        ((setFields_id d res.fields).trans hid)
      simp [resourceDeploymentCreate, hlock, hcr, hup]
  · intro res hcr
    have hup := updateLock_empty_id (setFields d res.fields) c
      ((setFields_id d res.fields).trans hid)
    simp [resourceDeploymentCreate, hlock, hcr, hup]

/-- Witness for C2 on concrete new-resource data and the all-success
client: the returned error is non-nil even though every remote call
succeeds. -/
theorem create_locked_new_resource_never_succeeds_witness :
    (resourceDeploymentCreate dLocked okClient).err.isSome = true :=
  (create_locked_new_resource_never_succeeds dLocked okClient rfl (by decide)).1

/-- C5 counterexample: on concrete resource data with a parseable
identifier and a client whose calls all succeed, a single update
invocation issues two remote calls — a lock/unlock `Run` and an `Update` —
refuting "update issues exactly one call to the remote client per
invocation". -/
theorem update_issues_two_calls :
    (resourceDeploymentUpdate d0 okClient).calls =
      [.run sampleLoc "@res.unlock()", .update sampleLoc (deploymentFields d0)] ∧
    (resourceDeploymentUpdate d0 okClient).calls.length ≠ 1 := by
  constructor <;> decide

/-- C5 amended: read and delete each perform a locator parse followed by a
single remote call; update performs a locator parse, then a lock/unlock
`Run`, then — only when that `Run` succeeded — a single `Update`: two
remote calls on its success path. -/
theorem lifecycle_call_pattern (d : ResourceData) (c : Client) (loc : Locator)
    (hloc : locator d = .ok loc) :
    (resourceRead d c).calls = [.get loc] ∧
    (resourceDelete d c).calls = [.delete loc] ∧
    ((resourceDeploymentUpdate d c).calls =
      let s := if d.getBool "locked" then "@res.lock()" else "@res.unlock()"
      match c.run loc s with
      | some _ => [.run loc s]
      | none => [.run loc s, .update loc (deploymentFields d)]) := by
  refine ⟨?_, ?_, ?_⟩
  · unfold resourceRead
    rw [hloc]
    cases hget : c.get loc with
    | error e => cases e <;> simp [hget, handleRSCError]
    | ok res => simp [hget]
  · unfold resourceDelete
    rw [hloc]
  · have hup := updateLock_parsed d c loc hloc
    unfold resourceDeploymentUpdate
    rw [hloc, hup]
    simp only
    cases hrun : c.run loc (if d.getBool "locked" then "@res.lock()" else "@res.unlock()") with
    | none =>
      cases hupd : c.update loc (deploymentFields d) <;>
        simp [handleError, hupd]
    | some e => simp [handleError]

/-- Witness for C5's amended claim: on concrete data and the all-success
client, read issues exactly its one `Get`. -/
theorem lifecycle_call_pattern_witness :
    (resourceRead d0 okClient).calls = [.get sampleLoc] :=
  (lifecycle_call_pattern d0 okClient sampleLoc rfl).1

end RS
